import Mathlib

/-! # Cart client (`src/static/js/cart.js`): a shallow embedding

The script has three parts: `getCSRFToken`, the click listener of the
add-to-cart table and the change listener of the cart table.  Each listener
reads one table row, calls `fetch` and continues in a `then`/`then`/`catch`
chain.

Modelling choices.

* JavaScript strings are Lean `String`s.  The string operations used by the
  script (`split(';')`, `trim`, `startsWith`, `substring`) only look at
  characters of the Basic Multilingual Plane, so working with code points
  instead of UTF-16 code units does not change their result.  Strings with
  unpaired surrogates are not represented.
* The page is a record of the elements the script touches.  The sticky
  notification, `#notification` and `#cart_length` are separate fields: the
  page template (which is not part of the script) is taken to keep them
  distinct elements, none nested in a counter element.
* `element.innerText = v` stores the value `v` that was assigned; the
  conversion of `v` to display text is left to the host.
* A response body is given by the result of `res.json()`; `cart_length` is any
  JSON value or absent.
* Time is a simulated clock in milliseconds; a timer fires when the clock
  reaches its due time.
-/

namespace Cart

/-! ## JavaScript string operations -/

/-- Code points removed by `String.prototype.trim`: WhiteSpace and LineTerminator. -/
def isWhiteSpace (c : Char) : Bool :=
  c.toNat ∈ [0x9, 0xA, 0xB, 0xC, 0xD, 0x20, 0xA0, 0x1680,
    0x2000, 0x2001, 0x2002, 0x2003, 0x2004, 0x2005, 0x2006, 0x2007, 0x2008, 0x2009, 0x200A,
    0x2028, 0x2029, 0x202F, 0x205F, 0x3000, 0xFEFF]

/-- Pieces of a character list between occurrences of `sep`; the empty list gives one empty piece. -/
def splitChars (sep : Char) : List Char → List (List Char)
  | [] => [[]]
  | c :: cs =>
    if c = sep then [] :: splitChars sep cs
    else
      match splitChars sep cs with
      | [] => [[c]]
      | piece :: pieces => (c :: piece) :: pieces

/-- The call `s.split(sep)` for a one-character separator. -/
def split (s : String) (sep : Char) : List String :=
  (splitChars sep s.data).map String.mk

/-- The call `s.trim()`: white space is removed from both ends. -/
def trim (s : String) : String :=
  ⟨((s.data.dropWhile isWhiteSpace).reverse.dropWhile isWhiteSpace).reverse⟩

/-- The call `s.startsWith(p)`. -/
def startsWith (s p : String) : Bool :=
  p.data.isPrefixOf s.data

/-- The call `s.substring(n)`: everything from position `n` on. -/
def substring (s : String) (n : Nat) : String :=
  ⟨s.data.drop n⟩

/-! ## `getCSRFToken` -/

/-- The constant `name` of `getCSRFToken`. -/
def name : String := "csrftoken="

/-- The `for (let cookie of cookies)` loop with its early `return`, and the final `return ''`. -/
def getCSRFToken.loop : List String → String
  | [] => ""
  | cookie :: rest =>
    let cookie := trim cookie
    if startsWith cookie name then substring cookie name.length
    else getCSRFToken.loop rest

/-- The function `getCSRFToken`, with `document.cookie` passed as an argument. -/
def getCSRFToken (documentCookie : String) : String :=
  getCSRFToken.loop (split documentCookie ';')

/-! ## `JSON.stringify` on the object literal `data` -/

/-- One lower-case hexadecimal digit. -/
def hexDigit (n : Nat) : Char :=
  if n < 10 then Char.ofNat (48 + n) else Char.ofNat (87 + n)

/-- The escape of one code point inside a JSON string (QuoteJSONString). -/
def quoteChar (c : Char) : List Char :=
  if c = '\x08' then ['\\', 'b']
  else if c = '\t' then ['\\', 't']
  else if c = '\n' then ['\\', 'n']
  else if c = '\x0c' then ['\\', 'f']
  else if c = '\r' then ['\\', 'r']
  else if c = '"' then ['\\', '"']
  else if c = '\\' then ['\\', '\\']
  else if c.toNat < 0x20 then ['\\', 'u', '0', '0', hexDigit (c.toNat / 16), hexDigit (c.toNat % 16)]
  else [c]

/-- The text `JSON.stringify` produces for a string value. -/
def quoteJSONString (s : String) : String :=
  ⟨'"' :: (s.data.flatMap quoteChar ++ ['"'])⟩

/-- The members `"key":"value"` of an object whose property values are strings or
`undefined` (`none`); a property whose value is `undefined` is left out. -/
def jsonMembers : List (String × Option String) → List String
  | [] => []
  | (_, none) :: rest => jsonMembers rest
  | (key, some value) :: rest => (quoteJSONString key ++ ":" ++ quoteJSONString value) :: jsonMembers rest

/-- The members joined with commas. -/
def joinComma : List String → String
  | [] => ""
  | [member] => member
  | member :: members => member ++ "," ++ joinComma members

/-- The call `JSON.stringify(obj)` for such an object, properties in creation order. -/
def JSONstringify (obj : List (String × Option String)) : String :=
  "\x7b" ++ joinComma (jsonMembers obj) ++ "\x7d"

/-! ## Reading a JSON text

A reader for the JSON grammar (RFC 8259), used to say what a request body denotes.  It
reads texts without insignificant white space whose value is an object with string
members; escapes of surrogate code points are not read. -/

/-- The value of a hexadecimal digit, in either case. -/
def hexValue (c : Char) : Option Nat :=
  if 48 ≤ c.toNat ∧ c.toNat ≤ 57 then some (c.toNat - 48)
  else if 97 ≤ c.toNat ∧ c.toNat ≤ 102 then some (c.toNat - 87)
  else if 65 ≤ c.toNat ∧ c.toNat ≤ 70 then some (c.toNat - 55)
  else none

/-- The character a two-character escape stands for. -/
def unescape (c : Char) : Option Char :=
  if c = '"' then some '"'
  else if c = '\\' then some '\\'
  else if c = '/' then some '/'
  else if c = 'b' then some '\x08'
  else if c = 'f' then some '\x0c'
  else if c = 'n' then some '\n'
  else if c = 'r' then some '\r'
  else if c = 't' then some '\t'
  else none

/-- Where the reader stands inside a string: between characters, after a backslash, or
inside a `\u` escape with some digits read. -/
inductive ReadState where
  | plain
  | escape
  | hex (seen : Nat) (value : Nat)

/-- Reads a JSON string after its opening quote: the characters it denotes and the text
that follows the closing quote. -/
def readString : ReadState → List Char → Option (List Char × List Char)
  | _, [] => none
  | .plain, c :: cs =>
    if c = '"' then some ([], cs)
    else if c = '\\' then readString .escape cs
    else if c.toNat < 0x20 then none
    else (readString .plain cs).map (fun r => (c :: r.1, r.2))
  | .escape, c :: cs =>
    if c = 'u' then readString (.hex 0 0) cs
    else
      match unescape c with
      | none => none
      | some d => (readString .plain cs).map (fun r => (d :: r.1, r.2))
  | .hex seen value, c :: cs =>
    match hexValue c with
    | none => none
    | some d =>
      if seen = 3 then
        if 0xD800 ≤ value * 16 + d ∧ value * 16 + d ≤ 0xDFFF then none
        else (readString .plain cs).map (fun r => (Char.ofNat (value * 16 + d) :: r.1, r.2))
      else readString (.hex (seen + 1) (value * 16 + d)) cs

/-- Reads the character `c`. -/
def expect (c : Char) : List Char → Option (List Char)
  | [] => none
  | d :: cs => if d = c then some cs else none

/-- Reads one member `"key":"value"`. -/
def readMember (cs : List Char) : Option ((String × String) × List Char) :=
  match expect '"' cs with
  | none => none
  | some cs1 =>
    match readString .plain cs1 with
    | none => none
    | some (key, cs2) =>
      match expect ':' cs2 with
      | none => none
      | some cs3 =>
        match expect '"' cs3 with
        | none => none
        | some cs4 =>
          match readString .plain cs4 with
          | none => none
          | some (value, cs5) => some ((⟨key⟩, ⟨value⟩), cs5)

/-- Reads the members of an object up to the closing brace that ends the text; `fuel`
bounds the number of members. -/
def readMembers : Nat → List Char → Option (List (String × String))
  | 0, _ => none
  | fuel + 1, cs =>
    match readMember cs with
    | none => none
    | some (_, []) => none
    | some (member, c :: rest) =>
      if c = '\x7d' ∧ rest = [] then some [member]
      else if c = ',' then (readMembers fuel rest).map (fun members => member :: members)
      else none

/-- Reads a JSON text that is an object with string members: its members in order. -/
def parseObject (text : String) : Option (List (String × String)) :=
  match text.data with
  | [] => none
  | c :: cs =>
    if c = '\x7b' then
      if cs = ['\x7d'] then some [] else readMembers cs.length cs
    else none

/-- The members of an object that survive `JSON.stringify`. -/
def presentMembers : List (String × Option String) → List (String × String)
  | [] => []
  | (_, none) :: rest => presentMembers rest
  | (key, some value) :: rest => (key, value) :: presentMembers rest

/-! ## The page -/

/-- The call `classList.contains(token)`. -/
def classContains (classList : List String) (token : String) : Bool :=
  classList.contains token

/-- The call `classList.add(token)`: the token is appended unless it is present. -/
def classAdd (classList : List String) (token : String) : List String :=
  if classList.contains token then classList else classList ++ [token]

/-- The call `classList.remove(token)`. -/
def classRemove (classList : List String) (token : String) : List String :=
  classList.filter (fun t => t != token)

/-- A value read from a parsed response or assigned to `innerText`: `undefined` or a
JSON value.  An object is given by its own properties. -/
inductive JSValue where
  | undefined
  | null
  | bool (b : Bool)
  | number (n : Int)
  | string (s : String)
  | array (items : List JSValue)
  | object (props : List (String × JSValue))

mutual
/-- Equality of two values can be decided. -/
def JSValue.decEq : (a b : JSValue) → Decidable (a = b)
  | .undefined, .undefined => isTrue rfl
  | .null, .null => isTrue rfl
  | .bool a, .bool b =>
    if h : a = b then isTrue (by rw [h]) else isFalse (by intro h1; cases h1; exact h rfl)
  | .number a, .number b =>
    if h : a = b then isTrue (by rw [h]) else isFalse (by intro h1; cases h1; exact h rfl)
  | .string a, .string b =>
    if h : a = b then isTrue (by rw [h]) else isFalse (by intro h1; cases h1; exact h rfl)
  | .array a, .array b =>
    match JSValue.decEqItems a b with
    | isTrue h => isTrue (by rw [h])
    | isFalse h => isFalse (by intro h1; cases h1; exact h rfl)
  | .object a, .object b =>
    match JSValue.decEqProps a b with
    | isTrue h => isTrue (by rw [h])
    | isFalse h => isFalse (by intro h1; cases h1; exact h rfl)
  | .undefined, .null | .undefined, .bool _ | .undefined, .number _ | .undefined, .string _
  | .undefined, .array _ | .undefined, .object _ => isFalse (by intro h; cases h)
  | .null, .undefined | .null, .bool _ | .null, .number _ | .null, .string _
  | .null, .array _ | .null, .object _ => isFalse (by intro h; cases h)
  | .bool _, .undefined | .bool _, .null | .bool _, .number _ | .bool _, .string _
  | .bool _, .array _ | .bool _, .object _ => isFalse (by intro h; cases h)
  | .number _, .undefined | .number _, .null | .number _, .bool _ | .number _, .string _
  | .number _, .array _ | .number _, .object _ => isFalse (by intro h; cases h)
  | .string _, .undefined | .string _, .null | .string _, .bool _ | .string _, .number _
  | .string _, .array _ | .string _, .object _ => isFalse (by intro h; cases h)
  | .array _, .undefined | .array _, .null | .array _, .bool _ | .array _, .number _
  | .array _, .string _ | .array _, .object _ => isFalse (by intro h; cases h)
  | .object _, .undefined | .object _, .null | .object _, .bool _ | .object _, .number _
  | .object _, .string _ | .object _, .array _ => isFalse (by intro h; cases h)
/-- Equality of two lists of values can be decided. -/
def JSValue.decEqItems : (a b : List JSValue) → Decidable (a = b)
  | [], [] => isTrue rfl
  | [], _ :: _ => isFalse (by intro h; cases h)
  | _ :: _, [] => isFalse (by intro h; cases h)
  | x :: xs, y :: ys =>
    match JSValue.decEq x y, JSValue.decEqItems xs ys with
    | isTrue h1, isTrue h2 => isTrue (by rw [h1, h2])
    | isFalse h1, _ => isFalse (by intro h; cases h; exact h1 rfl)
    | _, isFalse h2 => isFalse (by intro h; cases h; exact h2 rfl)
/-- Equality of two property lists can be decided. -/
def JSValue.decEqProps : (a b : List (String × JSValue)) → Decidable (a = b)
  | [], [] => isTrue rfl
  | [], _ :: _ => isFalse (by intro h; cases h)
  | _ :: _, [] => isFalse (by intro h; cases h)
  | (k, x) :: xs, (l, y) :: ys =>
    if hk : k = l then
      match JSValue.decEq x y, JSValue.decEqProps xs ys with
      | isTrue h1, isTrue h2 => isTrue (by rw [hk, h1, h2])
      | isFalse h1, _ => isFalse (by intro h; cases h; exact h1 rfl)
      | _, isFalse h2 => isFalse (by intro h; cases h; exact h2 rfl)
    else isFalse (by intro h; cases h; exact hk rfl)
end

instance : DecidableEq JSValue := JSValue.decEq

mutual
/-- Whether converting the value to a string (ToString) throws a TypeError.  A primitive
never does.  An object made by `JSON.parse` does exactly when it has an own property
`toString`: that property is not callable, and `valueOf`, own or inherited, gives no
primitive.  An array is joined, so it does when the conversion of an element does. -/
def toStringThrows : JSValue → Bool
  | .array items => toStringThrowsAny items
  | .object props => props.any (fun p => p.1 == "toString")
  | _ => false
/-- Whether the conversion of some element of the array throws. -/
def toStringThrowsAny : List JSValue → Bool
  | [] => false
  | item :: items => toStringThrows item || toStringThrowsAny items
end

/-- The result of `res.json()` when it resolves: a parsed JSON value.  Only the
properties of an object are kept, as the handlers read nothing else. -/
inductive Json where
  | null
  | bool (b : Bool)
  | number (n : Int)
  | string (s : String)
  | array
  | object (props : List (String × JSValue))
  deriving DecidableEq

/-- The reason a promise was rejected with or an exception was thrown with. -/
inductive JSError where
  | typeError
  | networkError
  | syntaxError
  deriving DecidableEq

/-- A table row `tr`: its class list, its `data-*` attributes (`none` when the
attribute is missing and `dataset` gives `undefined`) and the `value` of the
first descendant matching each selector (`none` when `querySelector` gives `null`). -/
structure Row where
  classList : List String
  productId : Option String
  endPointUrl : Option String
  itemQuantity : Option String
  packageQuantity : Option String
  packagePrice : Option String
  itemPrice : Option String
  deriving DecidableEq

/-- The `headers` object literal of both `fetch` calls. -/
structure Headers where
  contentType : String
  xCSRFToken : String
  deriving DecidableEq

/-- One call of `fetch(input, { method, headers, body })`. -/
structure FetchCall where
  input : Option String
  method : String
  headers : Headers
  body : String
  deriving DecidableEq

/-- Which listener issued a request. -/
inductive Path where
  | add
  | update
  deriving DecidableEq

/-- A request whose promise chain has not run yet, with the row its closure holds. -/
structure Pending where
  path : Path
  row : Nat
  deriving DecidableEq

/-- One `console.log` call. -/
inductive LogEntry where
  | data (obj : List (String × Option String))
  | productAdded (cartLength : JSValue)
  | serverError (error : JSError)
  | uncaught (error : JSError)
  deriving DecidableEq

/-- Everything the script reads or writes. -/
structure State where
  /-- The string `document.cookie`. -/
  cookie : String
  /-- Class list of `document.querySelector(".sticky-notification")`, `none` when there is no such element. -/
  sticky : Option (List String)
  /-- Text of `#notification`, `none` when there is no such element. -/
  notification : Option JSValue
  /-- Text of `#cart_length`, `none` when there is no such element. -/
  cart_length : Option JSValue
  /-- The table rows. -/
  rows : List Row
  /-- The simulated clock, in milliseconds. -/
  now : Nat
  /-- Due times of the callbacks passed to `setTimeout` that have not fired. -/
  timers : List Nat
  /-- Requests waiting for their response. -/
  inflight : List Pending
  /-- The `fetch` calls made so far. -/
  requests : List FetchCall
  /-- The `alert` calls made so far. -/
  alerts : List String
  /-- The `console.log` calls made so far. -/
  console : List LogEntry
  deriving DecidableEq

/-- The target of an event: its class list and the index of the row that
`e.target.closest("tr")` gives, `none` when it gives `null`. -/
structure Target where
  classList : List String
  tr : Option Nat
  deriving DecidableEq

/-- The call `e.target.closest("tr")` followed by the first property read on
the result, which throws when the result is `null`.  An index past the end of
the rows stands for no row as well. -/
def closestRow (s : State) (target : Target) : Except JSError (Nat × Row) :=
  match target.tr with
  | none => .error .typeError
  | some i =>
    match s.rows[i]? with
    | none => .error .typeError
    | some row => .ok (i, row)

/-- The read `row.querySelector(selector).value`, which throws when no element matches. -/
def controlValue (control : Option String) : Except JSError String :=
  match control with
  | none => .error .typeError
  | some value => .ok value

/-- Truthiness of a string: every string but the empty one. -/
def truthy (s : String) : Bool :=
  s != ""

/-! ## Add to cart: the click listener of `#product-table` -/

/-- The listener `function (e)` registered for `click`. -/
def onClick (target : Target) (s : State) : Except JSError State :=
  if classContains target.classList "add-btn" then do
    let (i, row) ← closestRow s target
    let product_id := row.productId
    let endPointUrl := row.endPointUrl
    let item_quantity ← controlValue row.itemQuantity
    let package_quantity ← controlValue row.packageQuantity
    let package_price ← controlValue row.packagePrice
    let item_price ← controlValue row.itemPrice
    let data := [("product_id", product_id),
                 ("item_quantity", some item_quantity),
                 ("package_quantity", some package_quantity),
                 ("item_price", some item_price),
                 ("package_price", some package_price)]
    if truthy item_quantity || truthy package_quantity then
      pure { s with
        requests := s.requests ++ [{
          input := endPointUrl
          method := "POST"
          headers := { contentType := "application/json", xCSRFToken := getCSRFToken s.cookie }
          body := JSONstringify data }]
        inflight := s.inflight ++ [{ path := .add, row := i }] }
    else pure s
  else pure s

/-- The read `response.cart_length`: it throws on `null`, and gives `undefined`
when the value has no such property. -/
def cartLengthOf (response : Json) : Except JSError JSValue :=
  match response with
  | .null => .error .typeError
  | .object props =>
    match props.lookup "cart_length" with
    | some v => .ok v
    | none => .ok .undefined
  | _ => .ok .undefined

/-- The row `i` after `row.classList.add(token)`. -/
def rowClassAdd (rows : List Row) (i : Nat) (token : String) : List Row :=
  match rows, i with
  | [], _ => []
  | row :: rest, 0 => { row with classList := classAdd row.classList token } :: rest
  | row :: rest, i + 1 => row :: rowClassAdd rest i token

/-- The callback passed to `setTimeout`: it hides the notification again. -/
def hideNotification (s : State) : State :=
  match s.sticky with
  | none => s
  | some classList => { s with sticky := some (classRemove (classAdd classList "hidden") "flex") }

/-- The second `then` callback of the add path.  The result carries the state
reached and the exception thrown, if any: writes made before a throw stay.  The
`innerText` setter converts the assigned value to a string first, which can throw. -/
def addSuccess (response : Json) (s : State) : State × Option JSError :=
  let s1 : State :=
    match s.sticky with
    | none => s
    | some classList =>
      { s with
        sticky := some (classAdd (classRemove classList "hidden") "flex")
        timers := s.timers ++ [s.now + 2400] }
  match s1.notification, cartLengthOf response with
  | none, _ => (s1, some .typeError)
  | some _, .error e => (s1, some e)
  | some _, .ok cartLength =>
    if toStringThrows cartLength then (s1, some .typeError)
    else
      let s2 : State :=
        { s1 with notification := some cartLength, console := s1.console ++ [.productAdded cartLength] }
      match s2.cart_length with
      | none => (s2, some .typeError)
      | some _ => ({ s2 with cart_length := some cartLength }, none)

/-- The `catch` callback of the add path, for the row `i` of the click. -/
def addCatch (i : Nat) (error : JSError) (s : State) : State :=
  { s with
    rows := rowClassAdd s.rows i "border-error"
    console := s.console ++ [.serverError error]
    alerts := s.alerts ++ ["Failed to Add the Product."] }

/-- What `res.json()` settles with. -/
inductive Body where
  | notJSON
  | json (value : Json)
  deriving DecidableEq

/-- How a request ends: the `fetch` promise rejects, or it resolves with a
response of some HTTP status. -/
inductive Outcome where
  | rejected
  | response (status : Nat) (body : Body)
  deriving DecidableEq

/-- The chain `.then(res => res.json()).then(...).catch(...)` of the add path. -/
def addChain (i : Nat) (outcome : Outcome) (s : State) : State :=
  match outcome with
  | .rejected => addCatch i .networkError s
  | .response _ .notJSON => addCatch i .syntaxError s
  | .response _ (.json value) =>
    match addSuccess value s with
    | (s', none) => s'
    | (s', some e) => addCatch i e s'

/-! ## Update cart: the change listener of the cart table -/

/-- The listener `function(e)` registered for `change`. -/
def onChange (target : Target) (s : State) : Except JSError State := do
  let (i, row) ← closestRow s target
  let product_id := row.productId
  let endPointUrl := row.endPointUrl
  let item_quantity ← controlValue row.itemQuantity
  let package_quantity ← controlValue row.packageQuantity
  let package_price ← controlValue row.packagePrice
  let item_price ← controlValue row.itemPrice
  let data := [("product_id", product_id),
               ("item_quantity", some item_quantity),
               ("package_quantity", some package_quantity),
               ("item_price", some item_price),
               ("package_price", some package_price)]
  pure { s with
    console := s.console ++ [.data data]
    requests := s.requests ++ [{
      input := endPointUrl
      method := "POST"
      headers := { contentType := "application/json", xCSRFToken := getCSRFToken s.cookie }
      body := JSONstringify data }]
    inflight := s.inflight ++ [{ path := .update, row := i }] }

/-- The second `then` callback of the update path.  The template literal converts
`response.cart_length` to a string before anything is logged, which can throw. -/
def updateSuccess (response : Json) (s : State) : State × Option JSError :=
  match cartLengthOf response with
  | .error e => (s, some e)
  | .ok cartLength =>
    if toStringThrows cartLength then (s, some .typeError)
    else
      let s1 : State := { s with console := s.console ++ [.productAdded cartLength] }
      match s1.cart_length with
      | none => (s1, some .typeError)
      | some _ => ({ s1 with cart_length := some cartLength }, none)

/-- The `catch` callback of the update path. -/
def updateCatch (error : JSError) (s : State) : State :=
  { s with
    console := s.console ++ [.serverError error]
    alerts := s.alerts ++ ["Failed to Add the Product."] }

/-- The chain `.then(res => res.json()).then(...).catch(...)` of the update path. -/
def updateChain (outcome : Outcome) (s : State) : State :=
  match outcome with
  | .rejected => updateCatch .networkError s
  | .response _ .notJSON => updateCatch .syntaxError s
  | .response _ (.json value) =>
    match updateSuccess value s with
    | (s', none) => s'
    | (s', some e) => updateCatch e s'

/-! ## The event loop -/

/-- What the host delivers to the script. -/
inductive Event where
  /-- A click inside `#product-table`. -/
  | click (target : Target)
  /-- A change inside the cart table. -/
  | change (target : Target)
  /-- The `k`-th request in flight ends with the given outcome. -/
  | settle (k : Nat) (outcome : Outcome)
  /-- The clock reaches `t`; the timers due by then fire. -/
  | tick (t : Nat)
  deriving DecidableEq

/-- A listener run by the host: an exception it throws is reported and changes nothing else. -/
def runListener (listener : State → Except JSError State) (s : State) : State :=
  match listener s with
  | .ok s' => s'
  | .error e => { s with console := s.console ++ [.uncaught e] }

/-- The clock moves to `t` and every timer due by then runs its callback, oldest first. -/
def advance (t : Nat) (s : State) : State :=
  (s.timers.filter (fun due => due ≤ t)).foldl (fun st _ => hideNotification st)
    { s with now := max s.now t, timers := s.timers.filter (fun due => t < due) }

/-- The promise chain of the `k`-th request in flight runs. -/
def settle (k : Nat) (outcome : Outcome) (s : State) : State :=
  match s.inflight[k]? with
  | none => s
  | some pending =>
    let s' : State := { s with inflight := s.inflight.eraseIdx k }
    match pending.path with
    | .add => addChain pending.row outcome s'
    | .update => updateChain outcome s'

/-- One turn of the event loop. -/
def step (s : State) : Event → State
  | .click target => runListener (onClick target) s
  | .change target => runListener (onChange target) s
  | .settle k outcome => settle k outcome s
  | .tick t => advance t s

/-- A run of the event loop. -/
def run (s : State) (events : List Event) : State :=
  events.foldl step s

/-! ## Sample page used to instantiate the theorems -/

/-- A row of the product table with the given quantities. -/
def sampleRow (itemQuantity packageQuantity : String) : Row :=
  { classList := ["row"], productId := some "17", endPointUrl := some "/cart/add/",
    itemQuantity := some itemQuantity, packageQuantity := some packageQuantity,
    packagePrice := some "120", itemPrice := some "10.5" }

/-- A row of the cart table whose four controls are all empty. -/
def emptyRow : Row :=
  { classList := [], productId := some "17", endPointUrl := some "/cart/update/",
    itemQuantity := some "", packageQuantity := some "", packagePrice := some "",
    itemPrice := some "" }

/-- A row of the product table without the `data-product-id` attribute. -/
def bareRow : Row :=
  { classList := ["row"], productId := none, endPointUrl := some "/cart/add/",
    itemQuantity := some "3", packageQuantity := some "", packagePrice := some "120",
    itemPrice := some "10.5" }

/-- A page with the given rows and all three display elements, nothing in flight yet. -/
def samplePage (rows : List Row) : State :=
  { cookie := "sessionid=9; csrftoken=tok3n", sticky := some ["sticky-notification", "hidden"],
    notification := some (.string "0"), cart_length := some (.string "0"),
    rows := rows, now := 0, timers := [], inflight := [], requests := [], alerts := [],
    console := [] }

/-- The add button of row `i`. -/
def addButton (i : Nat) : Target :=
  { classList := ["btn", "add-btn"], tr := some i }

/-- A quantity input of row `i`. -/
def quantityInput (i : Nat) : Target :=
  { classList := ["item-quantity"], tr := some i }

/-- Two add clicks on one row, the first response after 100 ms, the second after 2000 ms. -/
def overlappingResponses : List Event :=
  [.click (addButton 0), .click (addButton 0),
   .tick 100, .settle 0 (.response 200 (.json (.object [("cart_length", .number 1)]))),
   .tick 2000, .settle 0 (.response 200 (.json (.object [("cart_length", .number 2)])))]

/-! ## Lemmas on the string operations -/

theorem startsWith_append (a b : String) : startsWith (a ++ b) a = true := by
  simp [startsWith, List.isPrefixOf_iff_prefix]

theorem substring_append (a b : String) : substring (a ++ b) a.length = b := by
  show (⟨(a ++ b).data.drop a.data.length⟩ : String) = b
  rw [String.data_append, List.drop_left]

theorem dropWhile_isWhiteSpace_self (l : List Char)
    (h : ∀ c, l.head? = some c → isWhiteSpace c = false) :
    l.dropWhile isWhiteSpace = l := by
  cases l with
  | nil => rfl
  | cons c cs => simp [List.dropWhile, h c rfl]

/-- An entry that is exactly `csrftoken=T` is left alone by `trim` when `T` does not end in
white space. -/
theorem trim_name_append (T : String)
    (hT : ∀ c, T.data.getLast? = some c → isWhiteSpace c = false) :
    trim (name ++ T) = name ++ T := by
  have hname : name.data = 'c' :: "srftoken".data ++ ['='] := rfl
  have hstart : (name ++ T).data.dropWhile isWhiteSpace = (name ++ T).data := by
    apply dropWhile_isWhiteSpace_self
    intro c hc
    rw [String.data_append, hname] at hc
    simp at hc
    subst hc
    decide
  have hend : (name ++ T).data.reverse.dropWhile isWhiteSpace = (name ++ T).data.reverse := by
    apply dropWhile_isWhiteSpace_self
    intro c hc
    rw [List.head?_reverse, String.data_append, List.getLast?_append] at hc
    cases hlast : T.data.getLast? with
    | some d =>
      rw [hlast] at hc
      simp at hc
      subst hc
      exact hT d hlast
    | none =>
      rw [hlast, hname] at hc
      simp at hc
      subst hc
      decide
  apply String.ext
  show (((name ++ T).data.dropWhile isWhiteSpace).reverse.dropWhile isWhiteSpace).reverse = _
  rw [hstart, hend, List.reverse_reverse]

theorem getCSRFToken.loop_skip (pre rest : List String)
    (hpre : ∀ p ∈ pre, startsWith (trim p) name = false) :
    getCSRFToken.loop (pre ++ rest) = getCSRFToken.loop rest := by
  induction pre with
  | nil => rfl
  | cons p pre ih =>
    have hp : startsWith (trim p) name = false := hpre p (List.mem_cons_self p pre)
    have hrest : ∀ q ∈ pre, startsWith (trim q) name = false :=
      fun q hq => hpre q (List.mem_cons_of_mem p hq)
    simp [getCSRFToken.loop, hp, ih hrest]

/-! ## Claims on `getCSRFToken` -/

/-- C1, as stated, fails: with the entry `csrftoken=abc ` the token `abc ` loses its
trailing space, and with two entries `csrftoken=a` and `csrftoken=b` the token of the
second one is not returned. -/
theorem getCSRFToken_exact_counterexample :
    (name ++ "abc " ∈ split "a=1;csrftoken=abc " ';' ∧ ';' ∉ "abc ".data ∧
      getCSRFToken "a=1;csrftoken=abc " ≠ "abc ") ∧
    (name ++ "b" ∈ split "csrftoken=a;csrftoken=b" ';' ∧ ';' ∉ "b".data ∧
      getCSRFToken "csrftoken=a;csrftoken=b" ≠ "b") := by
  decide

/-- C1, amended: when an entry of the cookie string is `csrftoken=T` once the white space
around the entry is trimmed, and no entry before it starts with `csrftoken=` once trimmed,
`getCSRFToken` returns exactly `T`. -/
theorem getCSRFToken_first_entry (cookie T e : String) (pre post : List String)
    (hsplit : split cookie ';' = pre ++ e :: post)
    (hpre : ∀ p ∈ pre, startsWith (trim p) name = false)
    (he : trim e = name ++ T) :
    getCSRFToken cookie = T := by
  unfold getCSRFToken
  rw [hsplit, getCSRFToken.loop_skip pre (e :: post) hpre]
  show (if startsWith (trim e) name then substring (trim e) name.length
    else getCSRFToken.loop post) = T
  rw [he, startsWith_append, substring_append, if_pos rfl]

theorem getCSRFToken_first_entry_witness :
    getCSRFToken "a=1; csrftoken= x y ;csrftoken=b" = " x y" :=
  getCSRFToken_first_entry "a=1; csrftoken= x y ;csrftoken=b" " x y" " csrftoken= x y "
    ["a=1"] ["csrftoken=b"] (by decide) (by decide) (by decide)

/-- The amended C1 covers the entry that is exactly `csrftoken=T`, for every `T` that does
not end in white space. -/
theorem getCSRFToken_exact_entry (cookie T : String) (pre post : List String)
    (hsplit : split cookie ';' = pre ++ (name ++ T) :: post)
    (hpre : ∀ p ∈ pre, startsWith (trim p) name = false)
    (hT : ∀ c, T.data.getLast? = some c → isWhiteSpace c = false) :
    getCSRFToken cookie = T := by
  unfold getCSRFToken
  rw [hsplit, getCSRFToken.loop_skip pre ((name ++ T) :: post) hpre]
  show (if startsWith (trim (name ++ T)) name then substring (trim (name ++ T)) name.length
    else getCSRFToken.loop post) = T
  rw [trim_name_append T hT, startsWith_append, substring_append, if_pos rfl]

/-- C2: when no entry of the cookie string starts with `csrftoken=` once trimmed,
`getCSRFToken` returns the empty string; so it does for the empty cookie string and
for the single entry `xcsrftoken=abc`. -/
theorem getCSRFToken_absent (cookie : String)
    (h : ∀ e ∈ split cookie ';', startsWith (trim e) name = false) :
    getCSRFToken cookie = "" ∧ getCSRFToken "" = "" ∧ getCSRFToken "xcsrftoken=abc" = "" := by
  refine ⟨?_, by decide, by decide⟩
  have hskip := getCSRFToken.loop_skip (split cookie ';') [] h
  simpa [getCSRFToken, getCSRFToken.loop] using hskip

theorem getCSRFToken_absent_witness :
    getCSRFToken "sessionid=9; xcsrftoken=abc" = "" :=
  (getCSRFToken_absent "sessionid=9; xcsrftoken=abc" (by decide)).1


/-! ## Lemmas on `JSON.stringify` -/

/-- A string without quotes, backslashes and control characters is written as it is,
between double quotes. -/
theorem quoteJSONString_plain (value : String)
    (h : ∀ c ∈ value.data, c ≠ '"' ∧ c ≠ '\\' ∧ 0x20 ≤ c.toNat) :
    quoteJSONString value = "\"" ++ value ++ "\"" := by
  have hflat : ∀ l : List Char, (∀ c ∈ l, c ≠ '"' ∧ c ≠ '\\' ∧ 0x20 ≤ c.toNat) →
      l.flatMap quoteChar = l := by
    intro l
    induction l with
    | nil => intro _; rfl
    | cons c cs ih =>
      intro hl
      obtain ⟨hq, hb, hge⟩ := hl c (List.mem_cons_self c cs)
      have hcs := ih (fun d hd => hl d (List.mem_cons_of_mem c hd))
      have h1 : c ≠ '\x08' := fun hc => by subst hc; revert hge; decide
      have h2 : c ≠ '\t' := fun hc => by subst hc; revert hge; decide
      have h3 : c ≠ '\n' := fun hc => by subst hc; revert hge; decide
      have h4 : c ≠ '\x0c' := fun hc => by subst hc; revert hge; decide
      have h5 : c ≠ '\r' := fun hc => by subst hc; revert hge; decide
      have h6 : ¬ c.toNat < 0x20 := Nat.not_lt.2 hge
      rw [List.flatMap_cons, hcs]
      simp [quoteChar, h1, h2, h3, h4, h5, h6, hq, hb]
  apply String.ext
  show '"' :: (value.data.flatMap quoteChar ++ ['"']) = _
  rw [hflat value.data h]
  simp [String.data_append]

theorem JSONstringify_five (pid iq pq ip pp : String) :
    JSONstringify [("product_id", some pid), ("item_quantity", some iq),
      ("package_quantity", some pq), ("item_price", some ip), ("package_price", some pp)] =
    "\x7b\"product_id\":" ++ quoteJSONString pid ++ ",\"item_quantity\":" ++ quoteJSONString iq ++
      ",\"package_quantity\":" ++ quoteJSONString pq ++ ",\"item_price\":" ++ quoteJSONString ip ++
      ",\"package_price\":" ++ quoteJSONString pp ++ "\x7d" := by
  have h1 : quoteJSONString "product_id" = "\"product_id\"" := by decide
  have h2 : quoteJSONString "item_quantity" = "\"item_quantity\"" := by decide
  have h3 : quoteJSONString "package_quantity" = "\"package_quantity\"" := by decide
  have h4 : quoteJSONString "item_price" = "\"item_price\"" := by decide
  have h5 : quoteJSONString "package_price" = "\"package_price\"" := by decide
  apply String.ext
  simp [JSONstringify, jsonMembers, joinComma, String.data_append, List.append_assoc,
    h1, h2, h3, h4, h5]

theorem hexValue_hexDigit (n : Nat) (h : n < 16) : hexValue (hexDigit n) = some n := by
  interval_cases n <;> decide

theorem readString_hexEscape (k : Nat) (hk : k < 32) (rest : List Char) :
    readString .escape ('u' :: '0' :: '0' :: hexDigit (k / 16) :: hexDigit (k % 16) :: rest) =
      (readString .plain rest).map (fun r => (Char.ofNat k :: r.1, r.2)) := by
  have h1 : hexValue (hexDigit (k / 16)) = some (k / 16) := hexValue_hexDigit _ (by omega)
  have h2 : hexValue (hexDigit (k % 16)) = some (k % 16) := hexValue_hexDigit _ (by omega)
  have h0 : hexValue '0' = some 0 := by decide
  have hval : (0 * 16 + 0) * 16 + k / 16 = k / 16 := by omega
  have hk' : k / 16 * 16 + k % 16 = k := by omega
  have hns : ¬ (0xD800 ≤ k ∧ k ≤ 0xDFFF) := by omega
  simp [readString, h0, h1, h2, hk', hns]

theorem readString_plain_cons (c : Char) (X : List Char)
    (h1 : c ≠ '"') (h2 : c ≠ '\\') (h3 : ¬ c.toNat < 0x20) :
    readString .plain (c :: X) = (readString .plain X).map (fun r => (c :: r.1, r.2)) := by
  rw [readString, if_neg h1, if_neg h2, if_neg h3]

theorem readString_backslash (X : List Char) :
    readString .plain ('\\' :: X) = readString .escape X := by
  rw [readString, if_neg (by decide), if_pos rfl]

theorem readString_escape_cons (e d : Char) (X : List Char)
    (hu : e ≠ 'u') (he : unescape e = some d) :
    readString .escape (e :: X) = (readString .plain X).map (fun r => (d :: r.1, r.2)) := by
  rw [readString, if_neg hu, he]

/-- Reading the escape of one character gives the character back. -/
theorem readString_quoteChar (c : Char) (X : List Char) :
    readString .plain (quoteChar c ++ X) =
      (readString .plain X).map (fun r => (c :: r.1, r.2)) := by
  by_cases h1 : c = '\x08'
  · rw [show quoteChar c = ['\\', 'b'] by rw [quoteChar, if_pos h1], h1]
    exact (readString_backslash _).trans
      (readString_escape_cons 'b' '\x08' X (by decide) (by decide))
  by_cases h2 : c = '\t'
  · rw [show quoteChar c = ['\\', 't'] by rw [quoteChar, if_neg h1, if_pos h2], h2]
    exact (readString_backslash _).trans
      (readString_escape_cons 't' '\t' X (by decide) (by decide))
  by_cases h3 : c = '\n'
  · rw [show quoteChar c = ['\\', 'n'] by rw [quoteChar, if_neg h1, if_neg h2, if_pos h3], h3]
    exact (readString_backslash _).trans
      (readString_escape_cons 'n' '\n' X (by decide) (by decide))
  by_cases h4 : c = '\x0c'
  · rw [show quoteChar c = ['\\', 'f'] by
      rw [quoteChar, if_neg h1, if_neg h2, if_neg h3, if_pos h4], h4]
    exact (readString_backslash _).trans
      (readString_escape_cons 'f' '\x0c' X (by decide) (by decide))
  by_cases h5 : c = '\r'
  · rw [show quoteChar c = ['\\', 'r'] by
      rw [quoteChar, if_neg h1, if_neg h2, if_neg h3, if_neg h4, if_pos h5], h5]
    exact (readString_backslash _).trans
      (readString_escape_cons 'r' '\r' X (by decide) (by decide))
  by_cases h6 : c = '"'
  · rw [show quoteChar c = ['\\', '"'] by
      rw [quoteChar, if_neg h1, if_neg h2, if_neg h3, if_neg h4, if_neg h5, if_pos h6], h6]
    exact (readString_backslash _).trans
      (readString_escape_cons '"' '"' X (by decide) (by decide))
  by_cases h7 : c = '\\'
  · rw [show quoteChar c = ['\\', '\\'] by
      rw [quoteChar, if_neg h1, if_neg h2, if_neg h3, if_neg h4, if_neg h5, if_neg h6,
        if_pos h7], h7]
    exact (readString_backslash _).trans
      (readString_escape_cons '\\' '\\' X (by decide) (by decide))
  by_cases h8 : c.toNat < 0x20
  · rw [show quoteChar c =
        ['\\', 'u', '0', '0', hexDigit (c.toNat / 16), hexDigit (c.toNat % 16)] by
      rw [quoteChar, if_neg h1, if_neg h2, if_neg h3, if_neg h4, if_neg h5, if_neg h6,
        if_neg h7, if_pos h8]]
    have hread := (readString_backslash _).trans (readString_hexEscape c.toNat h8 X)
    rw [Char.ofNat_toNat] at hread
    exact hread
  · rw [show quoteChar c = [c] by
      rw [quoteChar, if_neg h1, if_neg h2, if_neg h3, if_neg h4, if_neg h5, if_neg h6,
        if_neg h7, if_neg h8]]
    exact readString_plain_cons c X h6 h7 h8

theorem readString_quoted (s rest : List Char) :
    readString .plain (s.flatMap quoteChar ++ '"' :: rest) = some (s, rest) := by
  induction s with
  | nil =>
    show readString .plain ('"' :: rest) = _
    rw [readString, if_pos rfl]
  | cons c cs ih =>
    rw [List.flatMap_cons, List.append_assoc, readString_quoteChar, ih]
    rfl

/-- The text of one member of an object. -/
theorem jsonMember_data (key value : String) :
    (quoteJSONString key ++ ":" ++ quoteJSONString value).data =
      '"' :: (key.data.flatMap quoteChar ++
        '"' :: ':' :: '"' :: (value.data.flatMap quoteChar ++ ['"'])) := by
  simp [quoteJSONString, String.data_append]

theorem readMember_member (key value : String) (rest : List Char) :
    readMember ((quoteJSONString key ++ ":" ++ quoteJSONString value).data ++ rest) =
      some ((key, value), rest) := by
  rw [jsonMember_data]
  have hshape : '"' :: (key.data.flatMap quoteChar ++
        '"' :: ':' :: '"' :: (value.data.flatMap quoteChar ++ ['"'])) ++ rest =
      '"' :: (key.data.flatMap quoteChar ++
        '"' :: ':' :: '"' :: (value.data.flatMap quoteChar ++ '"' :: rest)) := by
    simp
  rw [hshape]
  simp only [readMember, expect, if_true, readString_quoted]

theorem jsonMembers_eq_map (obj : List (String × Option String)) :
    jsonMembers obj =
      (presentMembers obj).map (fun m => quoteJSONString m.1 ++ ":" ++ quoteJSONString m.2) := by
  induction obj with
  | nil => rfl
  | cons p rest ih =>
    obtain ⟨key, value⟩ := p
    cases value with
    | none => simpa [jsonMembers, presentMembers] using ih
    | some v => simp [jsonMembers, presentMembers, ih]

theorem readMembers_joined (members : List (String × String)) (fuel : Nat)
    (hne : members ≠ []) (hfuel : members.length ≤ fuel) :
    readMembers fuel ((joinComma (members.map
      (fun m => quoteJSONString m.1 ++ ":" ++ quoteJSONString m.2))).data ++ ['\x7d']) =
      some members := by
  induction members generalizing fuel with
  | nil => exact absurd rfl hne
  | cons m rest ih =>
    obtain ⟨key, value⟩ := m
    cases fuel with
    | zero => simp at hfuel
    | succ fuel =>
      cases rest with
      | nil =>
        simp only [List.map, joinComma]
        rw [readMembers, readMember_member]
        simp
      | cons m2 rest2 =>
        have hlen : (m2 :: rest2).length ≤ fuel := by
          simp only [List.length_cons] at hfuel ⊢
          omega
        have ih2 := ih fuel (List.cons_ne_nil m2 rest2) hlen
        simp only [List.map, joinComma] at ih2 ⊢
        rw [readMembers, String.data_append, String.data_append, List.append_assoc,
          List.append_assoc, readMember_member]
        show (if ',' = '\x7d' ∧ _ = [] then _ else if ',' = ',' then _ else _) = _
        rw [if_neg (fun h => absurd h.1 (by decide)), if_pos rfl]
        exact congrArg (Option.map (fun members => (key, value) :: members)) ih2

theorem joinComma_length (members : List (String × String)) :
    members.length ≤ (joinComma (members.map
      (fun m => quoteJSONString m.1 ++ ":" ++ quoteJSONString m.2))).data.length := by
  induction members with
  | nil => simp
  | cons m rest ih =>
    cases rest with
    | nil =>
      simp only [List.map, joinComma, jsonMember_data]
      simp
    | cons m2 rest2 =>
      simp only [List.map, joinComma] at ih ⊢
      rw [String.data_append, String.data_append, List.length_append, List.length_append,
        jsonMember_data]
      simp only [List.length_cons] at ih ⊢
      omega

/-- The body `JSON.stringify` writes is a JSON text that denotes the object it was given:
the reader gets back every member whose value is not `undefined`, in order and unchanged. -/
theorem parseObject_JSONstringify (obj : List (String × Option String)) :
    parseObject (JSONstringify obj) = some (presentMembers obj) := by
  have hdata : (JSONstringify obj).data =
      '\x7b' :: ((joinComma ((presentMembers obj).map
        (fun m => quoteJSONString m.1 ++ ":" ++ quoteJSONString m.2))).data ++ ['\x7d']) := by
    rw [JSONstringify, jsonMembers_eq_map]
    simp [String.data_append]
  rw [parseObject, hdata]
  simp only [if_true]
  cases hms : presentMembers obj with
  | nil => simp [joinComma]
  | cons m rest =>
    have hne : m :: rest ≠ [] := List.cons_ne_nil m rest
    have hlen := joinComma_length (m :: rest)
    have hpos : (joinComma ((m :: rest).map
        (fun m => quoteJSONString m.1 ++ ":" ++ quoteJSONString m.2))).data ≠ [] := by
      intro h
      rw [h] at hlen
      simp at hlen
    rw [if_neg, readMembers_joined (m :: rest) _ hne]
    · rw [List.length_append]
      omega
    · intro h
      have hl := congrArg List.length h
      rw [List.length_append] at hl
      simp only [List.length_cons, List.length_nil] at hl
      exact hpos (List.length_eq_zero.1 (by omega))

/-! ## Lemmas on the listeners -/

theorem onClick_ok (s : State) (target : Target) (i : Nat) (row : Row) (iq pq pp ip : String)
    (hbtn : classContains target.classList "add-btn" = true)
    (htr : target.tr = some i) (hrow : s.rows[i]? = some row)
    (hiq : row.itemQuantity = some iq) (hpq : row.packageQuantity = some pq)
    (hpp : row.packagePrice = some pp) (hip : row.itemPrice = some ip) :
    onClick target s =
      if truthy iq || truthy pq then
        .ok { s with
          requests := s.requests ++ [{
            input := row.endPointUrl
            method := "POST"
            headers := { contentType := "application/json", xCSRFToken := getCSRFToken s.cookie }
            body := JSONstringify [("product_id", row.productId), ("item_quantity", some iq),
              ("package_quantity", some pq), ("item_price", some ip), ("package_price", some pp)] }]
          inflight := s.inflight ++ [{ path := .add, row := i }] }
      else .ok s := by
  simp only [onClick, hbtn, closestRow, htr, hrow, controlValue, hiq, hpq, hpp, hip,
    bind, Except.bind, pure, Except.pure, if_true]

theorem onChange_ok (s : State) (target : Target) (i : Nat) (row : Row) (iq pq pp ip : String)
    (htr : target.tr = some i) (hrow : s.rows[i]? = some row)
    (hiq : row.itemQuantity = some iq) (hpq : row.packageQuantity = some pq)
    (hpp : row.packagePrice = some pp) (hip : row.itemPrice = some ip) :
    onChange target s =
      .ok { s with
        console := s.console ++ [.data [("product_id", row.productId), ("item_quantity", some iq),
          ("package_quantity", some pq), ("item_price", some ip), ("package_price", some pp)]]
        requests := s.requests ++ [{
          input := row.endPointUrl
          method := "POST"
          headers := { contentType := "application/json", xCSRFToken := getCSRFToken s.cookie }
          body := JSONstringify [("product_id", row.productId), ("item_quantity", some iq),
            ("package_quantity", some pq), ("item_price", some ip), ("package_price", some pp)] }]
        inflight := s.inflight ++ [{ path := .update, row := i }] } := by
  simp only [onChange, closestRow, htr, hrow, controlValue, hiq, hpq, hpp, hip,
    bind, Except.bind, pure, Except.pure]

theorem truthy_or_iff (a b : String) : (truthy a || truthy b) = true ↔ (a ≠ "" ∨ b ≠ "") := by
  simp [truthy]

/-! ## Lemmas on class lists and the promise chains -/

theorem mem_classAdd (classList : List String) (token t : String) :
    t ∈ classAdd classList token ↔ t ∈ classList ∨ t = token := by
  unfold classAdd
  by_cases h : classList.contains token = true
  · rw [if_pos h]
    have hmem : token ∈ classList := by simpa using h
    constructor
    · exact fun ht => Or.inl ht
    · rintro (ht | ht)
      · exact ht
      · exact ht ▸ hmem
  · rw [if_neg h]
    simp

theorem mem_classRemove (classList : List String) (token t : String) :
    t ∈ classRemove classList token ↔ t ∈ classList ∧ t ≠ token := by
  simp [classRemove]

theorem shown_classes (classList : List String) :
    "hidden" ∉ classAdd (classRemove classList "hidden") "flex" ∧
    "flex" ∈ classAdd (classRemove classList "hidden") "flex" := by
  constructor
  · rw [mem_classAdd, mem_classRemove]
    rintro (⟨_, h⟩ | h)
    · exact h rfl
    · exact absurd h (by decide)
  · rw [mem_classAdd]
    exact Or.inr rfl

theorem hidden_classes (classList : List String) :
    "hidden" ∈ classRemove (classAdd classList "hidden") "flex" ∧
    "flex" ∉ classRemove (classAdd classList "hidden") "flex" := by
  constructor
  · rw [mem_classRemove, mem_classAdd]
    exact ⟨Or.inr rfl, by decide⟩
  · rw [mem_classRemove]
    exact fun h => h.2 rfl

/-- The state after any number of hide callbacks: only the notification classes can differ. -/
theorem foldl_hide_frame (due : List Nat) (s : State) :
    ∃ sticky, due.foldl (fun st _ => hideNotification st) s = { s with sticky := sticky } := by
  induction due generalizing s with
  | nil => exact ⟨s.sticky, rfl⟩
  | cons d due ih =>
    obtain ⟨sticky, h⟩ := ih (hideNotification s)
    refine ⟨sticky, ?_⟩
    rw [List.foldl_cons, h]
    unfold hideNotification
    cases s.sticky <;> rfl

/-- After at least one hide callback a notification element is hidden. -/
theorem foldl_hide_hidden (due : List Nat) (s : State) (classList : List String)
    (hs : s.sticky = some classList)
    (h : due ≠ [] ∨ ("hidden" ∈ classList ∧ "flex" ∉ classList)) :
    ∃ cl, (due.foldl (fun st _ => hideNotification st) s).sticky = some cl ∧
      "hidden" ∈ cl ∧ "flex" ∉ cl := by
  induction due generalizing s classList with
  | nil =>
    rcases h with h | h
    · exact absurd rfl h
    · exact ⟨classList, hs, h⟩
  | cons d due ih =>
    rw [List.foldl_cons]
    refine ih (hideNotification s) (classRemove (classAdd classList "hidden") "flex") ?_
      (Or.inr (hidden_classes classList))
    simp [hideNotification, hs]

theorem addSuccess_ok (s : State) (response : Json) (n t1 t2 : JSValue) (classList : List String)
    (hs : s.sticky = some classList) (hn : s.notification = some t1)
    (hc : s.cart_length = some t2) (hv : cartLengthOf response = .ok n)
    (hconv : toStringThrows n = false) :
    addSuccess response s =
      ({ s with
          sticky := some (classAdd (classRemove classList "hidden") "flex")
          timers := s.timers ++ [s.now + 2400]
          notification := some n
          console := s.console ++ [.productAdded n]
          cart_length := some n }, none) := by
  simp [addSuccess, hs, hn, hc, hv, hconv]

theorem rowClassAdd_getElem? (rows : List Row) (i : Nat) (token : String) :
    (rowClassAdd rows i token)[i]? =
      (rows[i]?).map (fun row => { row with classList := classAdd row.classList token }) := by
  induction rows generalizing i with
  | nil => simp [rowClassAdd]
  | cons row rest ih =>
    cases i with
    | zero => simp [rowClassAdd]
    | succ i => simpa [rowClassAdd] using ih i

/-- The success callback of the add path never touches the rows or the alerts. -/
theorem addSuccess_frame (response : Json) (s : State) :
    (addSuccess response s).1.rows = s.rows ∧ (addSuccess response s).1.alerts = s.alerts := by
  unfold addSuccess
  cases s.sticky <;> cases hn : s.notification <;> cases hc : s.cart_length <;>
    cases cartLengthOf response <;> simp [hn, hc] <;> split <;> simp

/-- Reading `cart_length` throws exactly on `null`. -/
theorem cartLengthOf_error_iff (response : Json) :
    (∃ e, cartLengthOf response = .error e) ↔ response = .null := by
  cases response with
  | object props =>
    cases h : props.lookup "cart_length" <;> simp [cartLengthOf, h]
  | _ => simp [cartLengthOf]

/-- The success callback of the add path throws exactly when the response is `null`, a
counter element is missing, or the conversion of `cart_length` to a string throws. -/
theorem addSuccess_throws_iff (response : Json) (s : State) :
    (addSuccess response s).2 ≠ none ↔
      (response = .null ∨ s.notification = none ∨ s.cart_length = none ∨
        ∃ n, cartLengthOf response = .ok n ∧ toStringThrows n = true) := by
  unfold addSuccess
  cases hv : cartLengthOf response with
  | error e =>
    have hnull : response = .null := (cartLengthOf_error_iff response).1 ⟨e, hv⟩
    cases s.sticky <;> cases hn : s.notification <;> simp [hn, hnull]
  | ok v =>
    have hne : response ≠ .null := fun h => by
      obtain ⟨e, he⟩ := (cartLengthOf_error_iff response).2 h
      rw [he] at hv
      cases hv
    cases hconv : toStringThrows v <;> cases s.sticky <;> cases hn : s.notification <;>
      cases hc : s.cart_length <;> simp [hn, hc, hne, hconv]

/-- The click listener only appends to the requests and the requests in flight. -/
theorem onClick_frame (target : Target) (s s' : State) (h : onClick target s = .ok s') :
    ∃ requests inflight, s' = { s with requests := requests, inflight := inflight } := by
  unfold onClick at h
  split at h
  · cases hrow : closestRow s target with
    | error e => simp [hrow, bind, Except.bind] at h
    | ok p =>
      obtain ⟨i, row⟩ := p
      cases hiq : controlValue row.itemQuantity with
      | error e => simp [hrow, hiq, bind, Except.bind] at h
      | ok iq =>
        cases hpq : controlValue row.packageQuantity with
        | error e => simp [hrow, hiq, hpq, bind, Except.bind] at h
        | ok pq =>
          cases hpp : controlValue row.packagePrice with
          | error e => simp [hrow, hiq, hpq, hpp, bind, Except.bind] at h
          | ok pp =>
            cases hip : controlValue row.itemPrice with
            | error e => simp [hrow, hiq, hpq, hpp, hip, bind, Except.bind] at h
            | ok ip =>
              simp only [hrow, hiq, hpq, hpp, hip, bind, Except.bind, pure, Except.pure] at h
              split at h
              · cases h
                exact ⟨_, _, rfl⟩
              · cases h
                exact ⟨_, _, rfl⟩
  · cases h
    exact ⟨_, _, rfl⟩

/-- The change listener only appends to the console, the requests and the requests in flight. -/
theorem onChange_frame (target : Target) (s s' : State) (h : onChange target s = .ok s') :
    ∃ console requests inflight,
      s' = { s with console := console, requests := requests, inflight := inflight } := by
  unfold onChange at h
  cases hrow : closestRow s target with
  | error e => simp [hrow, bind, Except.bind] at h
  | ok p =>
    obtain ⟨i, row⟩ := p
    cases hiq : controlValue row.itemQuantity with
    | error e => simp [hrow, hiq, bind, Except.bind] at h
    | ok iq =>
      cases hpq : controlValue row.packageQuantity with
      | error e => simp [hrow, hiq, hpq, bind, Except.bind] at h
      | ok pq =>
        cases hpp : controlValue row.packagePrice with
        | error e => simp [hrow, hiq, hpq, hpp, bind, Except.bind] at h
        | ok pp =>
          cases hip : controlValue row.itemPrice with
          | error e => simp [hrow, hiq, hpq, hpp, hip, bind, Except.bind] at h
          | ok ip =>
            simp only [hrow, hiq, hpq, hpp, hip, bind, Except.bind, pure, Except.pure] at h
            cases h
            exact ⟨_, _, _, rfl⟩

/-- The chain of the update path only writes the text of `#cart_length`, the console and the alerts. -/
theorem updateChain_frame (outcome : Outcome) (s : State) :
    ∃ cartLength console alerts,
      updateChain outcome s =
        { s with cart_length := cartLength, console := console, alerts := alerts } := by
  cases outcome with
  | rejected => exact ⟨_, _, _, rfl⟩
  | response status body =>
    cases body with
    | notJSON => exact ⟨_, _, _, rfl⟩
    | json value =>
      simp only [updateChain, updateSuccess]
      cases cartLengthOf value with
      | error e => exact ⟨_, _, _, rfl⟩
      | ok n =>
        cases hconv : toStringThrows n with
        | true =>
          simp only [hconv, if_true]
          exact ⟨_, _, _, rfl⟩
        | false =>
          cases hc : s.cart_length with
          | none =>
            simp only [hconv, hc, Bool.false_eq_true, if_false]
            exact ⟨_, _, _, rfl⟩
          | some t =>
            simp only [hconv, hc, Bool.false_eq_true, if_false]
            exact ⟨_, _, _, rfl⟩

/-- When the request fails the `catch` callback marks the row and raises the alert, and
nothing else on the page changes. -/
theorem addChain_failure (t : State) (i : Nat) (row : Row) (outcome : Outcome)
    (hrow : t.rows[i]? = some row)
    (hfail : outcome = .rejected ∨ ∃ status, outcome = .response status .notJSON) :
    ∃ s', addChain i outcome t = s' ∧
      s'.rows[i]? = some { row with classList := classAdd row.classList "border-error" } ∧
      "border-error" ∈ classAdd row.classList "border-error" ∧
      s'.alerts = t.alerts ++ ["Failed to Add the Product."] ∧
      s'.notification = t.notification ∧ s'.cart_length = t.cart_length ∧
      s'.sticky = t.sticky ∧ s'.timers = t.timers := by
  have hmark : ∀ e, (addCatch i e t).rows[i]? =
      some { row with classList := classAdd row.classList "border-error" } := by
    intro e
    show (rowClassAdd t.rows i "border-error")[i]? = _
    rw [rowClassAdd_getElem?, hrow]
    rfl
  have hmem : "border-error" ∈ classAdd row.classList "border-error" :=
    (mem_classAdd _ _ _).2 (Or.inr rfl)
  rcases hfail with h | ⟨status, h⟩
  · subst h
    exact ⟨_, rfl, hmark _, hmem, rfl, rfl, rfl, rfl, rfl⟩
  · subst h
    exact ⟨_, rfl, hmark _, hmem, rfl, rfl, rfl, rfl, rfl⟩

/-- The chain marks a clean row only through its `catch` callback. -/
theorem addChain_marked_only_if (t : State) (i : Nat) (row : Row) (outcome : Outcome)
    (hrow : t.rows[i]? = some row) (hclean : "border-error" ∉ row.classList)
    (row' : Row) (hrow' : (addChain i outcome t).rows[i]? = some row')
    (hmarked : "border-error" ∈ row'.classList) :
    outcome = .rejected ∨ (∃ status, outcome = .response status .notJSON) ∨
    ∃ status value, outcome = .response status (.json value) ∧
      (value = .null ∨ t.notification = none ∨ t.cart_length = none ∨
        ∃ n, cartLengthOf value = .ok n ∧ toStringThrows n = true) := by
  cases outcome with
  | rejected => exact Or.inl rfl
  | response status body =>
    cases body with
    | notJSON => exact Or.inr (Or.inl ⟨status, rfl⟩)
    | json value =>
      refine Or.inr (Or.inr ⟨status, value, rfl, ?_⟩)
      by_contra hno
      have hnone : (addSuccess value t).2 = none := by
        by_contra hthrow
        exact hno ((addSuccess_throws_iff value t).1 hthrow)
      have hrows : (addChain i (.response status (.json value)) t).rows = t.rows := by
        have hfr := (addSuccess_frame value t).1
        simp only [addChain]
        revert hnone hfr
        cases addSuccess value t with
        | mk s' err =>
          intro hnone hfr
          simp only at hnone hfr
          subst hnone
          exact hfr
      rw [hrows, hrow] at hrow'
      cases hrow'
      exact hclean hmarked

/-- A click whose guard passes changes the requests and puts one request of the row in flight. -/
theorem click_puts_in_flight (s : State) (target : Target) (i : Nat) (row : Row)
    (iq pq pp ip : String)
    (hbtn : classContains target.classList "add-btn" = true)
    (htr : target.tr = some i) (hrow : s.rows[i]? = some row)
    (hiq : row.itemQuantity = some iq) (hpq : row.packageQuantity = some pq)
    (hpp : row.packagePrice = some pp) (hip : row.itemPrice = some ip)
    (hguard : iq ≠ "" ∨ pq ≠ "") :
    ∃ requests, step s (.click target) =
      { s with requests := requests, inflight := s.inflight ++ [{ path := .add, row := i }] } := by
  have hok := onClick_ok s target i row iq pq pp ip hbtn htr hrow hiq hpq hpp hip
  rw [if_pos ((truthy_or_iff iq pq).2 hguard)] at hok
  simp only [step, runListener, hok]
  exact ⟨_, rfl⟩

theorem eraseIdx_concat_length (l : List Pending) (p : Pending) :
    (l ++ [p]).eraseIdx l.length = l := by
  induction l with
  | nil => rfl
  | cons q l ih => simp [List.eraseIdx, ih]

/-- Settling the request put in flight last runs the add chain for its row. -/
theorem settle_last (s : State) (requests : List FetchCall) (i : Nat) (outcome : Outcome) :
    step { s with requests := requests, inflight := s.inflight ++ [{ path := .add, row := i }] }
      (.settle s.inflight.length outcome) =
    addChain i outcome { s with requests := requests } := by
  simp only [step, settle]
  rw [List.getElem?_concat_length, eraseIdx_concat_length]

/-- The success callback of the add path removes no timer. -/
theorem addSuccess_timers (response : Json) (s : State) :
    ∃ new, (addSuccess response s).1.timers = s.timers ++ new := by
  unfold addSuccess
  cases s.sticky with
  | none =>
    refine ⟨[], ?_⟩
    cases hn : s.notification <;> cases hc : s.cart_length <;>
      cases cartLengthOf response <;> simp [hn, hc] <;> split <;> simp
  | some classList =>
    refine ⟨[s.now + 2400], ?_⟩
    cases hn : s.notification <;> cases hc : s.cart_length <;>
      cases cartLengthOf response <;> simp [hn, hc] <;> split <;> simp

/-- The chain of the add path removes no timer. -/
theorem addChain_timers (i : Nat) (outcome : Outcome) (s : State) :
    ∃ new, (addChain i outcome s).timers = s.timers ++ new := by
  cases outcome with
  | rejected => exact ⟨[], (List.append_nil _).symm⟩
  | response status body =>
    cases body with
    | notJSON => exact ⟨[], (List.append_nil _).symm⟩
    | json value =>
      obtain ⟨new, h⟩ := addSuccess_timers value s
      refine ⟨new, ?_⟩
      simp only [addChain]
      revert h
      cases addSuccess value s with
      | mk s' err =>
        intro h
        cases err with
        | none => exact h
        | some e => exact h

/-- No turn of the event loop other than a clock tick removes a timer. -/
theorem step_timers (s : State) (e : Event) (h : ∀ t, e ≠ .tick t) :
    ∃ new, (step s e).timers = s.timers ++ new := by
  cases e with
  | click target =>
    refine ⟨[], ?_⟩
    simp only [step, runListener]
    cases hl : onClick target s with
    | error err => simp
    | ok s' =>
      obtain ⟨requests, inflight, hs'⟩ := onClick_frame target s s' hl
      subst hs'
      simp
  | change target =>
    refine ⟨[], ?_⟩
    simp only [step, runListener]
    cases hl : onChange target s with
    | error err => simp
    | ok s' =>
      obtain ⟨console, requests, inflight, hs'⟩ := onChange_frame target s s' hl
      subst hs'
      simp
  | settle k outcome =>
    simp only [step, settle]
    cases s.inflight[k]? with
    | none => exact ⟨[], by simp⟩
    | some pending =>
      obtain ⟨path, row⟩ := pending
      cases path with
      | add => exact addChain_timers row outcome { s with inflight := s.inflight.eraseIdx k }
      | update =>
        obtain ⟨cartLength, console, alerts, hu⟩ :=
          updateChain_frame outcome { s with inflight := s.inflight.eraseIdx k }
        refine ⟨[], ?_⟩
        show (updateChain outcome { s with inflight := s.inflight.eraseIdx k }).timers = _
        rw [hu]
        exact (List.append_nil _).symm
  | tick t => exact absurd rfl (h t)

/-! ## Claims on the listeners -/

/-- C3: a click on an `add-btn` control in a row with all four value controls issues a
request exactly when `item_quantity` or `package_quantity` is a non-empty string; when both
are empty the listener leaves the whole state as it was. -/
theorem onClick_request_iff_quantity (s : State) (target : Target) (i : Nat) (row : Row)
    (iq pq pp ip : String)
    (hbtn : classContains target.classList "add-btn" = true)
    (htr : target.tr = some i) (hrow : s.rows[i]? = some row)
    (hiq : row.itemQuantity = some iq) (hpq : row.packageQuantity = some pq)
    (hpp : row.packagePrice = some pp) (hip : row.itemPrice = some ip) :
    ∃ s', onClick target s = .ok s' ∧
      ((∃ r, s'.requests = s.requests ++ [r]) ↔ (iq ≠ "" ∨ pq ≠ "")) ∧
      (s'.requests = s.requests ↔ (iq = "" ∧ pq = "")) ∧
      (iq = "" ∧ pq = "" → s' = s) := by
  rw [onClick_ok s target i row iq pq pp ip hbtn htr hrow hiq hpq hpp hip]
  by_cases hg : (truthy iq || truthy pq) = true
  · have hne : iq ≠ "" ∨ pq ≠ "" := (truthy_or_iff iq pq).1 hg
    have hnot : ¬ (iq = "" ∧ pq = "") := fun h => hne.elim (fun h1 => h1 h.1) (fun h2 => h2 h.2)
    rw [if_pos hg]
    refine ⟨_, rfl, ⟨fun _ => hne, fun _ => ⟨_, rfl⟩⟩, ⟨fun h => ?_, fun h => absurd h hnot⟩,
      fun h => absurd h hnot⟩
    have hlen := congrArg List.length h
    simp at hlen
  · have hne : ¬ (iq ≠ "" ∨ pq ≠ "") := fun h => hg ((truthy_or_iff iq pq).2 h)
    have hboth : iq = "" ∧ pq = "" :=
      ⟨by_contra fun h => hne (Or.inl h), by_contra fun h => hne (Or.inr h)⟩
    rw [if_neg hg]
    refine ⟨s, rfl, ⟨fun h => ?_, fun h => absurd h hne⟩, ⟨fun _ => hboth, fun _ => rfl⟩,
      fun _ => rfl⟩
    obtain ⟨r, hr⟩ := h
    have hlen := congrArg List.length hr
    simp at hlen

theorem onClick_request_iff_quantity_witness :
    ∃ s', onClick (addButton 0) (samplePage [sampleRow "" " "]) = .ok s' ∧
      ((∃ r, s'.requests = (samplePage [sampleRow "" " "]).requests ++ [r]) ↔
        (("" : String) ≠ "" ∨ (" " : String) ≠ "")) ∧
      (s'.requests = (samplePage [sampleRow "" " "]).requests ↔
        (("" : String) = "" ∧ (" " : String) = "")) ∧
      (("" : String) = "" ∧ (" " : String) = "" → s' = samplePage [sampleRow "" " "]) :=
  onClick_request_iff_quantity (samplePage [sampleRow "" " "]) (addButton 0) 0
    (sampleRow "" " ") "" " " "120" "10.5" (by decide) rfl rfl rfl rfl rfl rfl

/-- C4, as stated, fails: the guard of `bareRow` passes (`item_quantity` is `3`), but the
row has no `data-product-id`, so `product_id` is `undefined`, `JSON.stringify` leaves the
key out and the body of the one request has four keys, not five. -/
theorem onClick_request_counterexample :
    ∃ s' r, onClick (addButton 0) (samplePage [bareRow]) = .ok s' ∧ s'.requests = [r] ∧
      r.body = "\x7b\"item_quantity\":\"3\",\"package_quantity\":\"\"," ++
          "\"item_price\":\"10.5\",\"package_price\":\"120\"\x7d" ∧
      parseObject r.body = some [("item_quantity", "3"), ("package_quantity", ""),
        ("item_price", "10.5"), ("package_price", "120")] :=
  ⟨_, _, rfl, rfl, by decide, by decide⟩

/-- C4, amended: when the guard passes and the row carries `data-product-id`, one click adds
exactly one `fetch` call: `POST` to the row's `endPointUrl`, with
`Content-Type: application/json`, with `X-CSRFToken` the result of `getCSRFToken` on the
cookie string of that moment, and with a body that is a JSON text denoting the object with
exactly the five keys `product_id`, `item_quantity`, `package_quantity`, `item_price`,
`package_price`, each with the string read from the row, unchanged (`item_price` from
`.item-price`, `package_price` from `.package-price`). -/
theorem onClick_request (s : State) (target : Target) (i : Nat) (row : Row)
    (pid iq pq pp ip : String)
    (hbtn : classContains target.classList "add-btn" = true)
    (htr : target.tr = some i) (hrow : s.rows[i]? = some row)
    (hpid : row.productId = some pid)
    (hiq : row.itemQuantity = some iq) (hpq : row.packageQuantity = some pq)
    (hpp : row.packagePrice = some pp) (hip : row.itemPrice = some ip)
    (hguard : iq ≠ "" ∨ pq ≠ "") :
    ∃ s' r, onClick target s = .ok s' ∧ s'.requests = s.requests ++ [r] ∧
      r.input = row.endPointUrl ∧ r.method = "POST" ∧
      r.headers = { contentType := "application/json", xCSRFToken := getCSRFToken s.cookie } ∧
      r.body = "\x7b\"product_id\":" ++ quoteJSONString pid ++
          ",\"item_quantity\":" ++ quoteJSONString iq ++
          ",\"package_quantity\":" ++ quoteJSONString pq ++
          ",\"item_price\":" ++ quoteJSONString ip ++
          ",\"package_price\":" ++ quoteJSONString pp ++ "\x7d" ∧
      parseObject r.body = some [("product_id", pid), ("item_quantity", iq),
        ("package_quantity", pq), ("item_price", ip), ("package_price", pp)] := by
  rw [onClick_ok s target i row iq pq pp ip hbtn htr hrow hiq hpq hpp hip,
    if_pos ((truthy_or_iff iq pq).2 hguard)]
  refine ⟨_, _, rfl, rfl, rfl, rfl, rfl, ?_, ?_⟩
  · show JSONstringify _ = _
    rw [hpid, JSONstringify_five]
  · show parseObject (JSONstringify _) = _
    rw [hpid, parseObject_JSONstringify]
    rfl

theorem onClick_request_witness :
    ∃ s' r, onClick (addButton 1) (samplePage [sampleRow "" "", sampleRow "3" ""]) = .ok s' ∧
      s'.requests = [r] ∧
      r.input = some "/cart/add/" ∧ r.method = "POST" ∧
      r.headers = { contentType := "application/json", xCSRFToken := "tok3n" } ∧
      r.body = "\x7b\"product_id\":\"17\",\"item_quantity\":\"3\",\"package_quantity\":\"\"," ++
          "\"item_price\":\"10.5\",\"package_price\":\"120\"\x7d" ∧
      parseObject r.body = some [("product_id", "17"), ("item_quantity", "3"),
        ("package_quantity", ""), ("item_price", "10.5"), ("package_price", "120")] :=
  onClick_request (samplePage [sampleRow "" "", sampleRow "3" ""]) (addButton 1) 1
    (sampleRow "3" "") "17" "3" "" "120" "10.5" (by decide) rfl rfl rfl rfl rfl rfl rfl
    (by decide)

/-- C5: a change event whose target lies in a row with all four value controls adds
exactly one `fetch` call, whatever the four values are; the call is a `POST` with the same
address, headers and body as the call the click listener makes for the same row when its
guard passes, and when the row carries `data-product-id` the body is the five-key JSON text
of the strings read from the row. -/
theorem onChange_request (s : State) (target : Target) (i : Nat) (row : Row)
    (iq pq pp ip : String)
    (htr : target.tr = some i) (hrow : s.rows[i]? = some row)
    (hiq : row.itemQuantity = some iq) (hpq : row.packageQuantity = some pq)
    (hpp : row.packagePrice = some pp) (hip : row.itemPrice = some ip) :
    ∃ s' r, onChange target s = .ok s' ∧ s'.requests = s.requests ++ [r] ∧
      r.input = row.endPointUrl ∧ r.method = "POST" ∧
      r.headers = { contentType := "application/json", xCSRFToken := getCSRFToken s.cookie } ∧
      (∀ button : Target, classContains button.classList "add-btn" = true → button.tr = some i →
        (iq ≠ "" ∨ pq ≠ "") →
        ∃ s'', onClick button s = .ok s'' ∧ s''.requests = s.requests ++ [r]) ∧
      (∀ pid, row.productId = some pid →
        r.body = "\x7b\"product_id\":" ++ quoteJSONString pid ++
          ",\"item_quantity\":" ++ quoteJSONString iq ++
          ",\"package_quantity\":" ++ quoteJSONString pq ++
          ",\"item_price\":" ++ quoteJSONString ip ++
          ",\"package_price\":" ++ quoteJSONString pp ++ "\x7d") := by
  rw [onChange_ok s target i row iq pq pp ip htr hrow hiq hpq hpp hip]
  refine ⟨_, _, rfl, rfl, rfl, rfl, rfl, ?_, ?_⟩
  · intro button hbtn hbtr hguard
    rw [onClick_ok s button i row iq pq pp ip hbtn hbtr hrow hiq hpq hpp hip,
      if_pos ((truthy_or_iff iq pq).2 hguard)]
    exact ⟨_, rfl, rfl⟩
  · intro pid hpid
    show JSONstringify _ = _
    rw [hpid, JSONstringify_five]

theorem onChange_request_witness :
    ∃ s' r, onChange (quantityInput 0) (samplePage [emptyRow]) = .ok s' ∧
      s'.requests = (samplePage [emptyRow]).requests ++ [r] ∧
      r.input = emptyRow.endPointUrl ∧ r.method = "POST" ∧
      r.headers = { contentType := "application/json",
                    xCSRFToken := getCSRFToken (samplePage [emptyRow]).cookie } ∧
      (∀ button : Target, classContains button.classList "add-btn" = true → button.tr = some 0 →
        (("" : String) ≠ "" ∨ ("" : String) ≠ "") →
        ∃ s'', onClick button (samplePage [emptyRow]) = .ok s'' ∧
          s''.requests = (samplePage [emptyRow]).requests ++ [r]) ∧
      (∀ pid, emptyRow.productId = some pid →
        r.body = "\x7b\"product_id\":" ++ quoteJSONString pid ++
          ",\"item_quantity\":" ++ quoteJSONString "" ++
          ",\"package_quantity\":" ++ quoteJSONString "" ++
          ",\"item_price\":" ++ quoteJSONString "" ++
          ",\"package_price\":" ++ quoteJSONString "" ++ "\x7d") :=
  onChange_request (samplePage [emptyRow]) (quantityInput 0) 0 emptyRow
    "" "" "" "" rfl rfl rfl rfl rfl rfl

/-! ## Claims on the promise chains -/

/-- C6: on the add path, when the response parses to an object with `cart_length = n`, for
`n` a number or any other value whose conversion to a string does not throw, and
the sticky notification, `#notification` and `#cart_length` exist, then right after the
chain has run the notification has class `flex` and not `hidden`, both counters hold `n`,
and a timer is due 2400 ms later; when the clock reaches that time the notification has
class `hidden` and not `flex`, and both counters still hold `n`. -/
theorem addChain_shows_then_hides (s : State) (i status : Nat)
    (props : List (String × JSValue)) (n t1 t2 : JSValue) (classList : List String)
    (hs : s.sticky = some classList) (hn : s.notification = some t1)
    (hc : s.cart_length = some t2) (hp : props.lookup "cart_length" = some n)
    (hconv : toStringThrows n = false) :
    ∃ s1 s2 cl1 cl2,
      addChain i (.response status (.json (.object props))) s = s1 ∧
      s1.sticky = some cl1 ∧ "hidden" ∉ cl1 ∧ "flex" ∈ cl1 ∧
      s1.notification = some n ∧ s1.cart_length = some n ∧
      s1.timers = s.timers ++ [s.now + 2400] ∧
      advance (s.now + 2400) s1 = s2 ∧
      s2.sticky = some cl2 ∧ "hidden" ∈ cl2 ∧ "flex" ∉ cl2 ∧
      s2.notification = some n ∧ s2.cart_length = some n := by
  have hv : cartLengthOf (.object props) = .ok n := by simp [cartLengthOf, hp]
  have h1 : addChain i (.response status (.json (.object props))) s =
      { s with
        sticky := some (classAdd (classRemove classList "hidden") "flex")
        timers := s.timers ++ [s.now + 2400]
        notification := some n
        console := s.console ++ [.productAdded n]
        cart_length := some n } := by
    simp only [addChain, addSuccess_ok s (.object props) n t1 t2 classList hs hn hc hv hconv]
  obtain ⟨hshown1, hshown2⟩ := shown_classes classList
  have hdue : (s.timers ++ [s.now + 2400]).filter (fun due => due ≤ s.now + 2400) ≠ [] := by
    intro h
    have hmem : s.now + 2400 ∈ (s.timers ++ [s.now + 2400]).filter
        (fun due => due ≤ s.now + 2400) := by
      simp
    rw [h] at hmem
    exact absurd hmem (List.not_mem_nil _)
  rw [h1]
  obtain ⟨sticky, hframe⟩ := foldl_hide_frame
    ((s.timers ++ [s.now + 2400]).filter (fun due => due ≤ s.now + 2400))
    { s with
      sticky := some (classAdd (classRemove classList "hidden") "flex")
      timers := (s.timers ++ [s.now + 2400]).filter (fun due => s.now + 2400 < due)
      notification := some n
      console := s.console ++ [.productAdded n]
      cart_length := some n
      now := max s.now (s.now + 2400) }
  obtain ⟨cl2, hcl2, hhid1, hhid2⟩ := foldl_hide_hidden
    ((s.timers ++ [s.now + 2400]).filter (fun due => due ≤ s.now + 2400))
    { s with
      sticky := some (classAdd (classRemove classList "hidden") "flex")
      timers := (s.timers ++ [s.now + 2400]).filter (fun due => s.now + 2400 < due)
      notification := some n
      console := s.console ++ [.productAdded n]
      cart_length := some n
      now := max s.now (s.now + 2400) }
    (classAdd (classRemove classList "hidden") "flex") rfl (Or.inl hdue)
  refine ⟨_, _, _, cl2, rfl, rfl, hshown1, hshown2, rfl, rfl, rfl, rfl, hcl2, hhid1, hhid2, ?_, ?_⟩
  · exact congrArg State.notification hframe
  · exact congrArg State.cart_length hframe

theorem addChain_shows_then_hides_witness :
    ∃ s1 s2 cl1 cl2,
      addChain 0 (.response 200 (.json (.object [("cart_length", .number 7)])))
        (samplePage [sampleRow "3" ""]) = s1 ∧
      s1.sticky = some cl1 ∧ "hidden" ∉ cl1 ∧ "flex" ∈ cl1 ∧
      s1.notification = some (.number 7) ∧ s1.cart_length = some (.number 7) ∧
      s1.timers = [2400] ∧
      advance 2400 s1 = s2 ∧
      s2.sticky = some cl2 ∧ "hidden" ∈ cl2 ∧ "flex" ∉ cl2 ∧
      s2.notification = some (.number 7) ∧ s2.cart_length = some (.number 7) :=
  addChain_shows_then_hides (samplePage [sampleRow "3" ""]) 0 200
    [("cart_length", .number 7)] (.number 7) (.string "0") (.string "0")
    ["sticky-notification", "hidden"] rfl rfl rfl rfl rfl

/-- C7, as stated, fails in its converse.  After a click on the add button, a response
whose body is the JSON text `null`, or the JSON text of an object whose `cart_length` is an
object with a property `toString`, arrives and parses, so neither the request nor the parse
failed; yet the success callback throws and the row of the click receives `border-error`. -/
theorem addChain_marks_row_counterexample :
    "border-error" ∉ (sampleRow "3" "").classList ∧
    (∃ row, (run (samplePage [sampleRow "3" ""])
        [.click (addButton 0), .settle 0 (.response 200 (.json .null))]).rows[0]? = some row ∧
      "border-error" ∈ row.classList) ∧
    (∃ row, (run (samplePage [sampleRow "3" ""])
        [.click (addButton 0), .settle 0 (.response 200 (.json (.object
          [("cart_length", .object [("toString", .number 0)])])))]).rows[0]? = some row ∧
      "border-error" ∈ row.classList) := by
  refine ⟨?_, ⟨_, rfl, ?_⟩, ⟨_, rfl, ?_⟩⟩
  · decide
  · decide
  · decide

/-- C7, amended: a click on the add button of a row whose guard passes puts one request of
that row in flight.  When its `fetch` promise rejects or the body does not parse as JSON,
that row receives `border-error`, the alert "Failed to Add the Product." is raised, and the
counters, the notification classes and the timers are what they were before the click.
Conversely a row without `border-error` receives it only when the request failed, the body
did not parse, or the success callback threw: the parsed response is `null`, `#notification`
or `#cart_length` is missing, or the conversion of `cart_length` to a string throws. -/
theorem addChain_failure_marks_row (s : State) (target : Target) (i : Nat) (row : Row)
    (iq pq pp ip : String) (outcome : Outcome)
    (hbtn : classContains target.classList "add-btn" = true)
    (htr : target.tr = some i) (hrow : s.rows[i]? = some row)
    (hiq : row.itemQuantity = some iq) (hpq : row.packageQuantity = some pq)
    (hpp : row.packagePrice = some pp) (hip : row.itemPrice = some ip)
    (hguard : iq ≠ "" ∨ pq ≠ "") :
    (step s (.click target)).inflight = s.inflight ++ [{ path := .add, row := i }] ∧
    ((outcome = .rejected ∨ ∃ status, outcome = .response status .notJSON) →
      ∃ s2, run s [.click target, .settle s.inflight.length outcome] = s2 ∧
        s2.rows[i]? = some { row with classList := classAdd row.classList "border-error" } ∧
        "border-error" ∈ classAdd row.classList "border-error" ∧
        s2.alerts = s.alerts ++ ["Failed to Add the Product."] ∧
        s2.notification = s.notification ∧ s2.cart_length = s.cart_length ∧
        s2.sticky = s.sticky ∧ s2.timers = s.timers) ∧
    ("border-error" ∉ row.classList →
      ∀ row', (run s [.click target, .settle s.inflight.length outcome]).rows[i]? = some row' →
        "border-error" ∈ row'.classList →
        outcome = .rejected ∨ (∃ status, outcome = .response status .notJSON) ∨
        ∃ status value, outcome = .response status (.json value) ∧
          (value = .null ∨ s.notification = none ∨ s.cart_length = none ∨
            ∃ n, cartLengthOf value = .ok n ∧ toStringThrows n = true)) := by
  have hclick := click_puts_in_flight s target i row iq pq pp ip hbtn htr hrow hiq hpq hpp hip
    hguard
  obtain ⟨requests, hstep⟩ := hclick
  have hrun : run s [.click target, .settle s.inflight.length outcome] =
      addChain i outcome { s with requests := requests } := by
    show step (step s (.click target)) (.settle s.inflight.length outcome) = _
    rw [hstep]
    exact settle_last _ _ _ _
  refine ⟨by rw [hstep], ?_, ?_⟩
  · intro hfail
    rw [hrun]
    exact addChain_failure { s with requests := requests } i row outcome hrow hfail
  · intro hclean row' hrow' hmarked
    rw [hrun] at hrow'
    exact addChain_marked_only_if { s with requests := requests } i row outcome hrow hclean
      row' hrow' hmarked

theorem addChain_failure_marks_row_witness :
    (∃ s2, run (samplePage [sampleRow "3" ""])
        [.click (addButton 0), .settle 0 (.response 502 .notJSON)] = s2 ∧
      s2.rows[0]? = some { sampleRow "3" "" with classList := ["row", "border-error"] } ∧
      "border-error" ∈ ["row", "border-error"] ∧
      s2.alerts = ["Failed to Add the Product."] ∧
      s2.notification = some (.string "0") ∧ s2.cart_length = some (.string "0") ∧
      s2.sticky = some ["sticky-notification", "hidden"] ∧ s2.timers = []) ∧
    (Outcome.response 200 (.json .null) = .rejected ∨
      (∃ status, Outcome.response 200 (.json .null) = .response status .notJSON) ∨
      ∃ status value, Outcome.response 200 (.json .null) = .response status (.json value) ∧
        (value = .null ∨ (samplePage [sampleRow "3" ""]).notification = none ∨
          (samplePage [sampleRow "3" ""]).cart_length = none ∨
          ∃ n, cartLengthOf value = .ok n ∧ toStringThrows n = true)) :=
  ⟨(addChain_failure_marks_row (samplePage [sampleRow "3" ""]) (addButton 0) 0
      (sampleRow "3" "") "3" "" "120" "10.5" (.response 502 .notJSON)
      (by decide) rfl rfl rfl rfl rfl rfl (by decide)).2.1 (Or.inr ⟨502, rfl⟩),
   (addChain_failure_marks_row (samplePage [sampleRow "3" ""]) (addButton 0) 0
      (sampleRow "3" "") "3" "" "120" "10.5" (.response 200 (.json .null))
      (by decide) rfl rfl rfl rfl rfl rfl (by decide)).2.2 (by decide)
      { sampleRow "3" "" with classList := ["row", "border-error"] } rfl (by decide)⟩

/-- C8, as stated, fails: a response with status 500 whose body is the JSON text of an
object with `cart_length` 3 runs the success branch on both paths (the counter is set to 3,
no alert is raised, the row is not marked), unlike a rejected `fetch`. -/
theorem chain_status_counterexample :
    (addChain 0 (.response 500 (.json (.object [("cart_length", .number 3)])))
        (samplePage [sampleRow "3" ""])).cart_length = some (.number 3) ∧
    (addChain 0 (.response 500 (.json (.object [("cart_length", .number 3)])))
        (samplePage [sampleRow "3" ""])).alerts = [] ∧
    (addChain 0 (.response 500 (.json (.object [("cart_length", .number 3)])))
        (samplePage [sampleRow "3" ""])).rows = [sampleRow "3" ""] ∧
    (addChain 0 .rejected (samplePage [sampleRow "3" ""])).alerts
        = ["Failed to Add the Product."] ∧
    (updateChain (.response 500 (.json (.object [("cart_length", .number 3)])))
        (samplePage [sampleRow "3" ""])).cart_length = some (.number 3) ∧
    (updateChain (.response 500 (.json (.object [("cart_length", .number 3)])))
        (samplePage [sampleRow "3" ""])).alerts = [] ∧
    (updateChain .rejected (samplePage [sampleRow "3" ""])).alerts
        = ["Failed to Add the Product."] := by
  decide

/-- C8, amended: the chains never look at the HTTP status.  A response is handled the same
whatever its status; when its body does not parse as JSON it is handled as a rejected
`fetch` is, up to the error that is logged: the same alert, the same row mark on the add
path, and no write to the counters, the notification or the timers. -/
theorem chain_ignores_status (s : State) (i status status' : Nat) (body : Body) :
    addChain i (.response status body) s = addChain i (.response status' body) s ∧
    updateChain (.response status body) s = updateChain (.response status' body) s ∧
    addChain i (.response status .notJSON) s =
      { addChain i .rejected s with console := s.console ++ [.serverError .syntaxError] } ∧
    updateChain (.response status .notJSON) s =
      { updateChain .rejected s with console := s.console ++ [.serverError .syntaxError] } ∧
    addChain i (.response status .notJSON) s =
      { s with
        rows := rowClassAdd s.rows i "border-error"
        console := s.console ++ [.serverError .syntaxError]
        alerts := s.alerts ++ ["Failed to Add the Product."] } ∧
    updateChain (.response status .notJSON) s =
      { s with
        console := s.console ++ [.serverError .syntaxError]
        alerts := s.alerts ++ ["Failed to Add the Product."] } := by
  refine ⟨?_, ?_, rfl, rfl, rfl, rfl⟩
  · cases body <;> rfl
  · cases body <;> rfl

/-- C9: on the update path neither the turn of the change listener nor the chain touches a
row's class list, the notification's class list, the text of `#notification` or the timers,
whatever the outcome.  When the response parses, its `cart_length` converts to a string and
`#cart_length` exists, the chain writes the response's `cart_length` there and logs; when
the `fetch` rejects or the body does not parse it logs and raises the alert "Failed to Add
the Product." and changes nothing else, and so it does when the conversion of `cart_length`
to a string throws. -/
theorem update_path_frame (s : State) (target : Target) (outcome : Outcome) :
    ((step s (.change target)).rows = s.rows ∧ (step s (.change target)).sticky = s.sticky ∧
      (step s (.change target)).timers = s.timers ∧
      (step s (.change target)).notification = s.notification ∧
      (step s (.change target)).cart_length = s.cart_length ∧
      (step s (.change target)).alerts = s.alerts) ∧
    ((updateChain outcome s).rows = s.rows ∧ (updateChain outcome s).sticky = s.sticky ∧
      (updateChain outcome s).timers = s.timers ∧
      (updateChain outcome s).notification = s.notification) ∧
    (∃ cartLength console alerts, updateChain outcome s =
      { s with cart_length := cartLength, console := console, alerts := alerts }) ∧
    (∀ status value n t, outcome = .response status (.json value) →
      cartLengthOf value = .ok n → toStringThrows n = false → s.cart_length = some t →
      updateChain outcome s =
        { s with cart_length := some n, console := s.console ++ [.productAdded n] }) ∧
    ((outcome = .rejected ∨ ∃ status, outcome = .response status .notJSON) →
      ∃ e, updateChain outcome s =
        { s with
          console := s.console ++ [.serverError e]
          alerts := s.alerts ++ ["Failed to Add the Product."] }) ∧
    (∀ status value n, outcome = .response status (.json value) →
      cartLengthOf value = .ok n → toStringThrows n = true →
      updateChain outcome s =
        { s with
          console := s.console ++ [.serverError .typeError]
          alerts := s.alerts ++ ["Failed to Add the Product."] }) := by
  refine ⟨?_, ?_, updateChain_frame outcome s, ?_, ?_, ?_⟩
  · simp only [step, runListener]
    cases h : onChange target s with
    | error e => exact ⟨rfl, rfl, rfl, rfl, rfl, rfl⟩
    | ok s' =>
      obtain ⟨console, requests, inflight, hs'⟩ := onChange_frame target s s' h
      subst hs'
      exact ⟨rfl, rfl, rfl, rfl, rfl, rfl⟩
  · obtain ⟨cartLength, console, alerts, h⟩ := updateChain_frame outcome s
    rw [h]
    exact ⟨rfl, rfl, rfl, rfl⟩
  · intro status value n t ho hv hconv hc
    subst ho
    simp [updateChain, updateSuccess, hv, hconv, hc]
  · rintro (h | ⟨status, h⟩)
    · subst h
      exact ⟨_, rfl⟩
    · subst h
      exact ⟨_, rfl⟩
  · intro status value n ho hv hconv
    subst ho
    simp [updateChain, updateSuccess, hv, hconv, updateCatch]

theorem update_path_frame_witness :
    (updateChain (.response 200 (.json (.object [("cart_length", .number 4)])))
        (samplePage [sampleRow "" ""])) =
      { samplePage [sampleRow "" ""] with
        cart_length := some (.number 4), console := [.productAdded (.number 4)] } :=
  (update_path_frame (samplePage [sampleRow "" ""]) (quantityInput 0)
    (.response 200 (.json (.object [("cart_length", .number 4)])))).2.2.2.1
    200 (.object [("cart_length", .number 4)]) (.number 4) (.string "0") rfl rfl rfl rfl

/-! ## Claim on the hide timers -/

/-- C10: the hide timers are never cancelled (only a clock tick removes timers, and only
those that are due), and they are independent: in the run `overlappingResponses` the second
response shows the notification at 2000 ms and schedules its own timer for 4400 ms, but the
timer of the first response fires at 2500 ms and hides it, 500 ms after it was shown. -/
theorem hide_timer_hits_newer_notification :
    (∀ (s : State) (e : Event), (∀ t, e ≠ .tick t) →
      ∃ new, (step s e).timers = s.timers ++ new) ∧
    (∀ (s : State) (t : Nat),
      (step s (.tick t)).timers = s.timers.filter (fun due => t < due)) ∧
    ∃ shown hidden : State,
      run (samplePage [sampleRow "3" ""]) overlappingResponses = shown ∧
      shown.now = 2000 ∧ shown.timers = [100 + 2400, 2000 + 2400] ∧
      shown.sticky = some ["sticky-notification", "flex"] ∧
      shown.notification = some (.number 2) ∧ shown.cart_length = some (.number 2) ∧
      step shown (.tick (100 + 2400)) = hidden ∧
      hidden.sticky = some ["sticky-notification", "hidden"] ∧
      hidden.notification = some (.number 2) ∧ hidden.cart_length = some (.number 2) ∧
      hidden.timers = [2000 + 2400] ∧
      hidden.now - shown.now < 2400 := by
  refine ⟨step_timers, ?_, run (samplePage [sampleRow "3" ""]) overlappingResponses,
    step (run (samplePage [sampleRow "3" ""]) overlappingResponses) (.tick (100 + 2400)), ?_⟩
  · intro s t
    obtain ⟨sticky, h⟩ := foldl_hide_frame (s.timers.filter (fun due => due ≤ t))
      { s with now := max s.now t, timers := s.timers.filter (fun due => t < due) }
    exact congrArg State.timers h
  · decide

theorem hide_timer_hits_newer_notification_witness :
    ∃ new, (step (run (samplePage [sampleRow "3" ""]) [.click (addButton 0)])
        (.settle 0 (.response 200 (.json (.object [("cart_length", .number 1)]))))).timers
      = (run (samplePage [sampleRow "3" ""]) [.click (addButton 0)]).timers ++ new :=
  hide_timer_hits_newer_notification.1
    (run (samplePage [sampleRow "3" ""]) [.click (addButton 0)])
    (.settle 0 (.response 200 (.json (.object [("cart_length", .number 1)]))))
    (fun _ h => Event.noConfusion h)

end Cart
